import Mathlib

/-!
Shallow embedding of the profit-cli session orchestrator (src/app.rs,
src/main.rs, src/psp/mod.rs, src/config.rs).

Machine-arithmetic conventions:
* Rust `i64` amounts are modelled as `Int` (no overflow is exercised by any
  claim; sums stay far below 2^63 in every concrete statement).
* Rust `u16` terminal arithmetic is modelled as `Nat` with an explicit
  `% 65536` where the source multiplies two `u16` values, and `Nat`
  truncated subtraction for `saturating_sub`.
* Rust `f64` positions (BillAnimation.y_pos / target_y) are modelled as
  exact rationals: the physics step uses only `+ - * abs <` with the
  constants 0.3 and 1.0.
* The unit computation `(amount_cents as f64 / 100.0).floor() as i64` is
  modelled as `Int.fdiv amount_cents 100` (floor division): for
  `|amount| < 2^53` the `f64` division is exact enough that the floor
  agrees, and for larger magnitudes both sides land strictly outside the
  interval `[0, 10]`, so after the `min 10` cap and the empty-range clamp
  at 0 the produced unit count coincides.
* `HashSet<String>` (seen_ids) is modelled as a `List String` with
  cons-insertion and membership; only insert/contains are used by the code.
* `chrono` timestamps are opaque; they are modelled as `Int` and the
  current time is passed as a parameter where the source calls `Utc::now()`.
-/

/-- `psp::Payment` (src/psp/mod.rs). `created_at` is an opaque timestamp. -/
structure Payment where
  id : String
  amount_cents : Int
  currency : String
  status : String
  created_at : Int
  provider : String
deriving DecidableEq, Repr

/-- `app::BillAnimation` (src/app.rs). Positions are exact rationals. -/
structure BillAnimation where
  amount_cents : Int
  y_pos : ℚ
  target_y : ℚ
  settled : Bool
  age_ticks : Nat
  provider : String
deriving DecidableEq, Repr

/-- `app::AppPhase` (src/app.rs). -/
inductive AppPhase where
  | Setup
  | Running
  | Celebration
deriving DecidableEq, Repr

/-- `app::PendingBill` (src/app.rs). -/
structure PendingBill where
  amount_cents : Int
  provider : String
deriving DecidableEq, Repr

/-- `app::SetupStep` (src/app.rs). -/
inductive SetupStep where
  | Currency
  | ProviderSelect
  | ProviderApiKey
  | ProviderMerchantAccount
  | Confirm
deriving DecidableEq, Repr

/-- `app::ProviderSetupState` (src/app.rs). -/
structure ProviderSetupState where
  name : String
  enabled : Bool
  api_key : String
  merchant_account : String
deriving DecidableEq, Repr

/-- `psp::PspConfig` (src/psp/mod.rs). -/
structure PspConfig where
  provider : String
  api_key : String
deriving DecidableEq, Repr

/-- `config::AppConfig` (src/config.rs). -/
structure AppConfig where
  currency : String
  currency_symbol : String
  providers : List PspConfig
deriving DecidableEq, Repr

/-- `config::AppConfig::default` (src/config.rs). -/
def AppConfig.default : AppConfig :=
  { currency := "EUR", currency_symbol := "€", providers := [] }

/-- `app::CURRENCIES` (src/app.rs). -/
def CURRENCIES : List (String × String) :=
  [("EUR", "€"), ("USD", "$"), ("GBP", "£"), ("JPY", "¥"),
   ("CHF", "CHF"), ("CAD", "CA$"), ("AUD", "A$")]

/-- `app::PROVIDERS` (src/app.rs). -/
def PROVIDERS : List String := ["Mock", "Mollie", "Adyen"]

/-- `app::App` (src/app.rs): the whole session orchestrator state. -/
structure App where
  config : AppConfig
  phase : AppPhase
  bills : List BillAnimation
  total_cents : Int
  session_payments : List Payment
  start_time : Int
  seen_ids : List String
  celebration_tick : Nat
  setup_cursor : Nat
  setup_currency_idx : Nat
  setup_input : String
  setup_step : SetupStep
  provider_configs : List ProviderSetupState
  current_provider_idx : Nat
  error_message : Option String
  pending_bills : List PendingBill
deriving DecidableEq, Repr

/-- `App::new` (src/app.rs); `now` stands for the `chrono::Utc::now()` call. -/
def App.new (now : Int) : App :=
  { config := AppConfig.default
    phase := AppPhase.Setup
    bills := []
    total_cents := 0
    session_payments := []
    start_time := now
    seen_ids := []
    celebration_tick := 0
    setup_cursor := 0
    setup_currency_idx := 0
    setup_input := ""
    setup_step := SetupStep.Currency
    provider_configs := PROVIDERS.map (fun name =>
      { name := name, enabled := false, api_key := "", merchant_account := "" })
    current_provider_idx := 0
    error_message := none
    pending_bills := [] }

/-- `App::from_config` (src/app.rs): skip setup when at least one provider
is configured. -/
def App.from_config (now : Int) (config : AppConfig) : App :=
  let app := { App.new now with config := config }
  if config.providers.isEmpty then app
  else { app with phase := AppPhase.Running, start_time := now }

/-- `App::add_payment` (src/app.rs lines 114-131): dedup by id, accumulate
the total, enqueue `min(floor(amount/100), 10)` pending bills of
denomination 100 (the Rust `for _ in 0..units.min(10)` loop runs zero times
when the bound is non-positive, hence the `Int.toNat` clamp), and append to
the session history. -/
def App.add_payment (a : App) (p : Payment) : App :=
  if p.id ∈ a.seen_ids then a
  else
    let units : Int := Int.fdiv p.amount_cents 100
    { a with
      seen_ids := p.id :: a.seen_ids
      total_cents := a.total_cents + p.amount_cents
      pending_bills := a.pending_bills ++
        List.replicate (min units 10).toNat { amount_cents := 100, provider := p.provider }
      session_payments := a.session_payments ++ [p] }

/-- One bill's physics update inside `App::tick_animations`
(src/app.rs lines 158-171): settle when `|target − current| < 1`, otherwise
ease by `0.3 ×` the distance; every bill ages by one tick. -/
def tickBill (b : BillAnimation) : BillAnimation :=
  let b1 :=
    if b.settled = false then
      let distance := b.target_y - b.y_pos
      if |distance| < 1 then { b with y_pos := b.target_y, settled := true }
      else { b with y_pos := b.y_pos + distance * (3 / 10) }
    else b
  { b1 with age_ticks := b1.age_ticks + 1 }

/-- `App::tick_animations` (src/app.rs). -/
def App.tick_animations (a : App) : App :=
  { a with bills := a.bills.map tickBill }

/-- `App::is_screen_full` (src/app.rs lines 173-177): the settled count and
the product `settled * 3` are `u16` values (hence the `% 65536`), and
`terminal_height.saturating_sub(6)` is `Nat` truncated subtraction. -/
def App.is_screen_full (a : App) (terminal_height : Nat) : Bool :=
  decide (terminal_height - 6 ≤ (a.bills.filter (fun b => b.settled)).length % 65536 * 3 % 65536)

/-- `App::reset_session` (src/app.rs lines 179-185): clear animation state,
back to Running; total / seen_ids / history are deliberately kept. -/
def App.reset_session (a : App) : App :=
  { a with
    bills := []
    pending_bills := []
    celebration_tick := 0
    phase := AppPhase.Running }

/-- Key codes from `crossterm::event::KeyCode` as used by src/main.rs;
the space key arrives as `KeyCode::Char(' ')`. -/
inductive KeyCode where
  | Up
  | Down
  | Enter
  | Esc
  | Backspace
  | Char (c : Char)
deriving DecidableEq, Repr

/-- The Running-phase fragment of the control loop body
(src/main.rs lines 91-99): run the physics step, then enter Celebration
with `celebration_tick = 0` when the screen is full and no pending bills
remain. -/
def runningTick (a : App) (terminal_height : Nat) : App :=
  if a.phase = AppPhase.Running then
    let a1 := a.tick_animations
    if a1.is_screen_full terminal_height && a1.pending_bills.isEmpty then
      { a1 with phase := AppPhase.Celebration, celebration_tick := 0 }
    else a1
  else a

/-- The Celebration-timer fragment of the control loop body
(src/main.rs lines 103-108): increment the tick counter and reset the
session once it exceeds 100. -/
def celebrationTimerStep (a : App) : App :=
  if a.phase = AppPhase.Celebration then
    let a1 := { a with celebration_tick := a.celebration_tick + 1 }
    if 100 < a1.celebration_tick then a1.reset_session else a1
  else a

/-- The Celebration-phase key handler of the control loop
(src/main.rs lines 148-155): Enter or Space resets the session immediately
(quit keys terminate the loop and are outside the session state). -/
def handleCelebrationKey (a : App) (key : KeyCode) : App :=
  if key = KeyCode.Enter ∨ key = KeyCode.Char ' ' then a.reset_session else a

/-- In-place update of one list element, modelling Rust slice index
assignment `v[i].field = x` (no-op when out of range, which the reachable
states never are). -/
def updateAt (i : Nat) (f : α → α) : List α → List α
  | [] => []
  | x :: xs =>
    match i with
    | 0 => f x :: xs
    | n + 1 => x :: updateAt n f xs

/-- The credential-scan predicate of src/main.rs: an enabled provider that
is not the keyless Mock provider and has no API key yet. -/
def needsApiKey (p : ProviderSetupState) : Bool :=
  p.enabled && p.name != "Mock" && p.api_key.isEmpty

/-- `advance_to_next_provider_or_confirm` (src/main.rs lines 315-324):
scan `provider_configs[current_provider_idx + 1 ..]` for the next enabled
provider lacking a key; capture it, else go to Confirm. -/
def advanceToNextProviderOrConfirm (a : App) : App :=
  let start := a.current_provider_idx + 1
  match (a.provider_configs.drop start).findIdx? needsApiKey with
  | some idx =>
    { a with
      current_provider_idx := start + idx
      setup_input := ""
      setup_step := SetupStep.ProviderApiKey }
  | none => { a with setup_step := SetupStep.Confirm }

/-- The CurrencySelect arm of `handle_setup_input`
(src/main.rs lines 180-201); the per-step handlers below are the arms of
its `match app.setup_step`, and each returns the updated app together with
the `bool` that signals wizard completion. -/
def handleCurrencyKey (a : App) (key : KeyCode) : App × Bool :=
  match key with
  | KeyCode.Up =>
    (if 0 < a.setup_currency_idx
     then { a with setup_currency_idx := a.setup_currency_idx - 1 } else a, false)
  | KeyCode.Down =>
    (if a.setup_currency_idx < CURRENCIES.length - 1
     then { a with setup_currency_idx := a.setup_currency_idx + 1 } else a, false)
  | KeyCode.Enter =>
    let pair := CURRENCIES.getD a.setup_currency_idx ("", "")
    ({ a with
        config := { a.config with currency := pair.1, currency_symbol := pair.2 }
        setup_step := SetupStep.ProviderSelect
        setup_cursor := 0 }, false)
  | _ => (a, false)

/-- The ProviderSelect arm of `handle_setup_input`
(src/main.rs lines 202-233). -/
def handleProviderSelectKey (a : App) (key : KeyCode) : App × Bool :=
  match key with
  | KeyCode.Up =>
    (if 0 < a.setup_cursor then { a with setup_cursor := a.setup_cursor - 1 } else a, false)
  | KeyCode.Down =>
    (if a.setup_cursor < a.provider_configs.length - 1
     then { a with setup_cursor := a.setup_cursor + 1 } else a, false)
  | KeyCode.Char ' ' =>
    ({ a with provider_configs :=
        updateAt a.setup_cursor (fun p => { p with enabled := !p.enabled }) a.provider_configs },
     false)
  | KeyCode.Enter =>
    if a.provider_configs.any (fun p => p.enabled) then
      match a.provider_configs.findIdx? needsApiKey with
      | some idx =>
        ({ a with
            current_provider_idx := idx
            setup_input := ""
            setup_step := SetupStep.ProviderApiKey }, false)
      | none => ({ a with setup_step := SetupStep.Confirm }, false)
    else (a, false)
  | _ => (a, false)

/-- The ProviderApiKey arm of `handle_setup_input`
(src/main.rs lines 234-262). -/
def handleApiKeyKey (a : App) (key : KeyCode) : App × Bool :=
  match key with
  | KeyCode.Char c => ({ a with setup_input := a.setup_input.push c }, false)
  | KeyCode.Backspace => ({ a with setup_input := a.setup_input.dropRight 1 }, false)
  | KeyCode.Enter =>
    if a.setup_input.isEmpty then (a, false)
    else
      let a1 :=
        { a with
          provider_configs :=
            updateAt a.current_provider_idx
              (fun p => { p with api_key := a.setup_input }) a.provider_configs
          setup_input := "" }
      if (a1.provider_configs.getD a1.current_provider_idx
            { name := "", enabled := false, api_key := "", merchant_account := "" }).name
          = "Adyen"
      then ({ a1 with setup_step := SetupStep.ProviderMerchantAccount }, false)
      else (advanceToNextProviderOrConfirm a1, false)
  | KeyCode.Esc =>
    ({ a with setup_input := "", setup_step := SetupStep.ProviderSelect }, false)
  | _ => (a, false)

/-- The ProviderMerchantAccount arm of `handle_setup_input`
(src/main.rs lines 263-284). -/
def handleMerchantKey (a : App) (key : KeyCode) : App × Bool :=
  match key with
  | KeyCode.Char c => ({ a with setup_input := a.setup_input.push c }, false)
  | KeyCode.Backspace => ({ a with setup_input := a.setup_input.dropRight 1 }, false)
  | KeyCode.Enter =>
    if a.setup_input.isEmpty then (a, false)
    else
      let a1 :=
        { a with
          provider_configs :=
            updateAt a.current_provider_idx
              (fun p => { p with merchant_account := a.setup_input }) a.provider_configs
          setup_input := "" }
      (advanceToNextProviderOrConfirm a1, false)
  | KeyCode.Esc =>
    ({ a with setup_input := "", setup_step := SetupStep.ProviderApiKey }, false)
  | _ => (a, false)

/-- The Confirm arm of `handle_setup_input` (src/main.rs lines 285-310). -/
def handleConfirmKey (a : App) (key : KeyCode) : App × Bool :=
  match key with
  | KeyCode.Enter =>
    let provs := (a.provider_configs.filter (fun p => p.enabled)).map (fun p =>
      { provider := p.name
        api_key :=
          if p.name = "Adyen" then p.api_key ++ "|" ++ p.merchant_account
          else p.api_key : PspConfig })
    ({ a with config := { a.config with providers := provs } }, true)
  | KeyCode.Esc => ({ a with setup_step := SetupStep.ProviderSelect }, false)
  | _ => (a, false)

/-- `handle_setup_input` (src/main.rs lines 178-313): dispatch on the
current wizard step. -/
def handleSetupInput (a : App) (key : KeyCode) : App × Bool :=
  match a.setup_step with
  | SetupStep.Currency => handleCurrencyKey a key
  | SetupStep.ProviderSelect => handleProviderSelectKey a key
  | SetupStep.ProviderApiKey => handleApiKeyKey a key
  | SetupStep.ProviderMerchantAccount => handleMerchantKey a key
  | SetupStep.Confirm => handleConfirmKey a key

/-- The payment sources main.rs can actually construct (src/psp/mod.rs
declares only the `mock` and `adyen` modules; src/psp/mollie.rs is not part
of the crate). -/
inductive ProviderImpl where
  | Mock
  | Adyen (api_key : String) (merchant : String)
deriving DecidableEq, Repr

/-- Split a character list at the first occurrence of `c`; `none` when `c`
does not occur. Models Rust `s.splitn(2, c)` yielding two parts. -/
def splitOnFirst : List Char → Char → Option (List Char × List Char)
  | [], _ => none
  | x :: xs, c =>
    if x = c then some ([], xs)
    else
      match splitOnFirst xs c with
      | some (pre, post) => some (x :: pre, post)
      | none => none

/-- One iteration of the `build_providers` loop (src/main.rs lines 20-41):
"Mock" always builds; "Adyen" builds only when the stored key splits as
`key|merchant`; every other provider string (including "Mollie") is
silently dropped by the wildcard match arm. -/
def buildProvider (cfg : PspConfig) : Option ProviderImpl :=
  if cfg.provider = "Mock" then some ProviderImpl.Mock
  else if cfg.provider = "Adyen" then
    match splitOnFirst cfg.api_key.data '|' with
    | some (k, m) => some (ProviderImpl.Adyen (String.mk k) (String.mk m))
    | none => none
  else none

/-- `build_providers` (src/main.rs lines 20-41). -/
def buildProviders (configs : List PspConfig) : List ProviderImpl :=
  configs.filterMap buildProvider

/-- First-occurrence filter: the sublist of payments whose id is neither in
`seen` nor among the ids of an earlier kept payment. This is the
specification-side description of exactly-once accounting. -/
def firstOccurrences : List Payment → List String → List Payment
  | [], _ => []
  | p :: ps, seen =>
    if p.id ∈ seen then firstOccurrences ps seen
    else p :: firstOccurrences ps (p.id :: seen)

/-- The cross-operation consistency invariant of claim C10: the running
total equals the sum of the history amounts, and every history entry's id
is in the seen-id set. -/
def App.consistent (a : App) : Prop :=
  a.total_cents = (a.session_payments.map (fun p => p.amount_cents)).sum ∧
  ∀ p ∈ a.session_payments, p.id ∈ a.seen_ids

/-! Concrete fixtures used by counterexamples and witnesses. -/

/-- A running session loaded from a one-provider configuration. -/
def appRun : App :=
  App.from_config 0
    { currency := "EUR", currency_symbol := "€",
      providers := [{ provider := "Mock", api_key := "" }] }

/-- A sample payment of 15.50 EUR. -/
def pay1550 : Payment :=
  { id := "p1", amount_cents := 1550, currency := "EUR", status := "paid",
    created_at := 0, provider := "Mock" }

/-- A sample refund-like payment with a negative amount. -/
def payNeg : Payment :=
  { id := "n1", amount_cents := -100, currency := "EUR", status := "paid",
    created_at := 0, provider := "Mock" }

/-- The running session after `pay1550` has been ingested once. -/
def appSeen : App := appRun.add_payment pay1550

/-! Helper lemmas. -/

/-- A duplicate id makes `add_payment` a no-op on the whole state. -/
theorem add_payment_of_mem {a : App} {p : Payment} (h : p.id ∈ a.seen_ids) :
    a.add_payment p = a := by
  simp [App.add_payment, h]

/-- Field view of `add_payment` on a fresh id. -/
theorem add_payment_of_not_mem {a : App} {p : Payment} (h : p.id ∉ a.seen_ids) :
    (a.add_payment p).seen_ids = p.id :: a.seen_ids ∧
    (a.add_payment p).total_cents = a.total_cents + p.amount_cents ∧
    (a.add_payment p).session_payments = a.session_payments ++ [p] ∧
    (a.add_payment p).pending_bills = a.pending_bills ++
      List.replicate (min (Int.fdiv p.amount_cents 100) 10).toNat
        { amount_cents := 100, provider := p.provider } := by
  simp [App.add_payment, h]

/-- Folding `add_payment` over a delivery sequence accounts exactly the
first occurrence of each not-yet-seen id, in total and in history. -/
theorem foldl_add_payment_firstOccurrences (ps : List Payment) : ∀ a : App,
    (ps.foldl App.add_payment a).total_cents =
      a.total_cents + ((firstOccurrences ps a.seen_ids).map (fun p => p.amount_cents)).sum ∧
    (ps.foldl App.add_payment a).session_payments =
      a.session_payments ++ firstOccurrences ps a.seen_ids := by
  induction ps with
  | nil => intro a; simp [firstOccurrences]
  | cons p ps ih =>
    intro a
    by_cases h : p.id ∈ a.seen_ids
    · simpa [firstOccurrences, h, add_payment_of_mem h] using ih a
    · obtain ⟨hseen, htot, hhist, -⟩ := add_payment_of_not_mem h
      obtain ⟨ih1, ih2⟩ := ih (a.add_payment p)
      rw [List.foldl_cons] at *
      constructor
      · rw [ih1, hseen, htot, firstOccurrences]
        simp [h, add_assoc]
      · rw [ih2, hseen, hhist, firstOccurrences]
        simp [h]

/-! Claim theorems. -/

/-- C1: a payment whose id is already in the seen-id set leaves the whole
session state unchanged, and over any delivery sequence each distinct id
contributes to the total and to the history exactly once (only the first
occurrence of a not-yet-seen id is accounted). -/
theorem C1_idempotent_ingestion :
    (∀ (a : App) (p : Payment), p.id ∈ a.seen_ids → a.add_payment p = a) ∧
    (∀ (ps : List Payment) (a : App),
      (ps.foldl App.add_payment a).total_cents =
        a.total_cents + ((firstOccurrences ps a.seen_ids).map (fun p => p.amount_cents)).sum ∧
      (ps.foldl App.add_payment a).session_payments =
        a.session_payments ++ firstOccurrences ps a.seen_ids) :=
  ⟨fun _ _ h => add_payment_of_mem h,
   fun ps a => foldl_add_payment_firstOccurrences ps a⟩

/-- Witness for C1: re-delivering `pay1550` to a session that has already
seen it changes nothing. -/
theorem C1_idempotent_ingestion_witness :
    appSeen.add_payment pay1550 = appSeen :=
  C1_idempotent_ingestion.1 appSeen pay1550 (by decide)

/-- Counterexample to C2 as stated: for the negative amount −100,
`min(floor(a/100), 10) = −1`, but the number of pending bills appended by
`add_payment` is 0 (the Rust range `0..-1` is empty). -/
theorem C2_negative_amount_counterexample :
    ((appRun.add_payment payNeg).pending_bills.length : Int)
        - (appRun.pending_bills.length : Int)
      ≠ min (Int.fdiv payNeg.amount_cents 100) 10 := by
  decide

/-- C2 amended: on a fresh id, `add_payment` appends exactly
`max(0, min(floor(amount/100), 10))` pending bills (the `Int.toNat` clamp),
each of denomination 100 and tagged with the payment's provider. -/
theorem C2_amended_bounded_expansion (a : App) (p : Payment)
    (h : p.id ∉ a.seen_ids) :
    (a.add_payment p).pending_bills = a.pending_bills ++
      List.replicate (min (Int.fdiv p.amount_cents 100) 10).toNat
        { amount_cents := 100, provider := p.provider } :=
  (add_payment_of_not_mem h).2.2.2

/-- Witness for C2 amended: amount 1550 yields exactly 10 capped bills of
denomination 100 tagged "Mock". -/
theorem C2_amended_bounded_expansion_witness :
    (appRun.add_payment pay1550).pending_bills =
      appRun.pending_bills ++
        List.replicate 10 { amount_cents := 100, provider := "Mock" } :=
  (C2_amended_bounded_expansion appRun pay1550 (by decide)).trans (by decide)

/-- Counterexample to C3 as stated: a payment with negative amount −100
delivered while phase = Running strictly decreases the total. -/
theorem C3_negative_payment_decreases_total :
    appRun.phase = AppPhase.Running ∧
    (appRun.add_payment payNeg).total_cents < appRun.total_cents := by
  constructor
  · decide
  · decide

/-- C3 amended: for payments with non-negative amount the total is
monotonically non-decreasing while phase = Running, and `reset_session`
leaves the total exactly unchanged (so resets never decrease it). -/
theorem C3_amended_monotonic_total (a : App) (p : Payment)
    (hph : a.phase = AppPhase.Running) (hamt : 0 ≤ p.amount_cents) :
    a.total_cents ≤ (a.add_payment p).total_cents ∧
    (a.reset_session).total_cents = a.total_cents := by
  refine ⟨?_, rfl⟩
  by_cases h : p.id ∈ a.seen_ids
  · rw [add_payment_of_mem h]
  · rw [(add_payment_of_not_mem h).2.1]
    omega

/-- Witness for C3 amended: ingesting 15.50 EUR in the running session does
not decrease the total, and a reset keeps it. -/
theorem C3_amended_monotonic_total_witness :
    appRun.total_cents ≤ (appRun.add_payment pay1550).total_cents ∧
    (appRun.reset_session).total_cents = appRun.total_cents :=
  C3_amended_monotonic_total appRun pay1550 (by decide) (by decide)

/-- C4: `reset_session` clears exactly the queue/animation state (bills,
pending bills, celebration tick) and sets phase to Running, while the
total, seen-id set, payment history, configuration and start timestamp are
unchanged. -/
theorem C4_reset_session_frame (a : App) :
    (a.reset_session).bills = [] ∧
    (a.reset_session).pending_bills = [] ∧
    (a.reset_session).celebration_tick = 0 ∧
    (a.reset_session).phase = AppPhase.Running ∧
    (a.reset_session).total_cents = a.total_cents ∧
    (a.reset_session).seen_ids = a.seen_ids ∧
    (a.reset_session).session_payments = a.session_payments ∧
    (a.reset_session).config = a.config ∧
    (a.reset_session).start_time = a.start_time :=
  ⟨rfl, rfl, rfl, rfl, rfl, rfl, rfl, rfl, rfl⟩

/-- C8 (bug evidence): `build_providers` yields no payment source for a
persisted "Mollie" entry (the wildcard match arm drops it), while "Mock"
and a well-formed "Adyen" entry in the same list do build sources. -/
theorem C8_build_providers_drops_mollie :
    buildProviders [{ provider := "Mollie", api_key := "key" }] = [] ∧
    buildProviders
        [{ provider := "Mock", api_key := "" },
         { provider := "Mollie", api_key := "key" },
         { provider := "Adyen", api_key := "ak|ma" }]
      = [ProviderImpl.Mock, ProviderImpl.Adyen "ak" "ma"] := by
  constructor
  · decide
  · decide

/-- C10: the consistency invariant (total = Σ history amounts, and every
history id is in the seen-id set) holds initially and is preserved by
`add_payment` and `reset_session`; a duplicate delivery changes nothing at
all, and an accepted one updates seen-set, total and history together. -/
theorem C10_session_consistency :
    (∀ now : Int, (App.new now).consistent) ∧
    (∀ (a : App) (p : Payment), a.consistent → (a.add_payment p).consistent) ∧
    (∀ a : App, a.consistent → (a.reset_session).consistent) ∧
    (∀ (a : App) (p : Payment), p.id ∈ a.seen_ids → a.add_payment p = a) := by
  refine ⟨?_, ?_, ?_, fun _ _ h => add_payment_of_mem h⟩
  · intro now
    exact ⟨rfl, by simp [App.new]⟩
  · intro a p ⟨htot, hmem⟩
    by_cases h : p.id ∈ a.seen_ids
    · rw [add_payment_of_mem h]; exact ⟨htot, hmem⟩
    · obtain ⟨hseen, htot', hhist, -⟩ := add_payment_of_not_mem h
      constructor
      · rw [htot', hhist, htot]
        simp
      · intro q hq
        rw [hhist] at hq
        rcases List.mem_append.mp hq with hq | hq
        · rw [hseen]
          exact List.mem_cons_of_mem _ (hmem q hq)
        · rw [List.mem_singleton.mp hq, hseen]
          exact List.mem_cons_self _ _
  · intro a ⟨htot, hmem⟩
    exact ⟨htot, hmem⟩

/-- Witness for C10: the invariant holds after ingesting `pay1550` into the
freshly loaded running session. -/
theorem C10_session_consistency_witness :
    (appRun.add_payment pay1550).consistent :=
  C10_session_consistency.2.1 appRun pay1550 ⟨rfl, by simp [appRun, App.from_config, App.new]⟩

/-- A session sitting at Celebration entry (tick counter 0). -/
def appCeleb : App := { appRun with phase := AppPhase.Celebration }

/-- The C6 scenario: Mock enabled (needs no key), Mollie enabled (needs a
key, has none), Adyen disabled. -/
def wizardConfigs : List ProviderSetupState :=
  [{ name := "Mock", enabled := true, api_key := "", merchant_account := "" },
   { name := "Mollie", enabled := true, api_key := "", merchant_account := "" },
   { name := "Adyen", enabled := false, api_key := "", merchant_account := "" }]

/-- A wizard sitting on ProviderSelect with the C6 scenario toggles. -/
def appWizard : App :=
  { App.new 0 with setup_step := SetupStep.ProviderSelect, provider_configs := wizardConfigs }

/-- A falling bill at distance 10 from its target. -/
def bEx : BillAnimation :=
  { amount_cents := 100, y_pos := 0, target_y := 10, settled := false,
    age_ticks := 0, provider := "Mock" }

/-- Iterating the celebration-timer step from counter 0 only counts up
while the counter stays at most 100. -/
theorem celebrationTimerStep_iterate_le {a : App}
    (hp : a.phase = AppPhase.Celebration) (ht : a.celebration_tick = 0) :
    ∀ k : Nat, k ≤ 100 →
      celebrationTimerStep^[k] a = { a with celebration_tick := k } := by
  intro k
  induction k with
  | zero =>
    intro _
    rw [Function.iterate_zero, id_eq, ← ht]
  | succ n ihn =>
    intro hk
    rw [Function.iterate_succ_apply', ihn (by omega)]
    have h2 : ¬ (100 < n + 1) := by omega
    simp [celebrationTimerStep, hp, h2]

/-- C5: from Celebration entry with the tick counter at 0 and no input, the
timer step leaves the session in Celebration with counter k for the first
100 ticks and performs the session reset exactly on the 101st tick; and a
confirm key (Enter or Space) while in Celebration below counter 101 resets
immediately. -/
theorem C5_celebration_cadence :
    (∀ a : App, a.phase = AppPhase.Celebration → a.celebration_tick = 0 →
      (∀ k, k ≤ 100 → (celebrationTimerStep^[k] a).phase = AppPhase.Celebration ∧
        (celebrationTimerStep^[k] a).celebration_tick = k) ∧
      celebrationTimerStep^[101] a = a.reset_session) ∧
    (∀ (a : App) (key : KeyCode), a.phase = AppPhase.Celebration →
      a.celebration_tick < 101 → (key = KeyCode.Enter ∨ key = KeyCode.Char ' ') →
      handleCelebrationKey a key = a.reset_session) := by
  constructor
  · intro a hp ht
    constructor
    · intro k hk
      rw [celebrationTimerStep_iterate_le hp ht k hk]
      exact ⟨hp, rfl⟩
    · have h100 : celebrationTimerStep^[100] a = { a with celebration_tick := 100 } :=
        celebrationTimerStep_iterate_le hp ht 100 (le_refl 100)
      rw [show (101 : Nat) = 100 + 1 from rfl, Function.iterate_succ_apply', h100]
      simp [celebrationTimerStep, hp, App.reset_session]
  · intro a key _ _ hkey
    simp [handleCelebrationKey, hkey]

/-- Witness for C5: from `appCeleb` the 101st timer tick is exactly the
session reset, and Enter resets immediately. -/
theorem C5_celebration_cadence_witness :
    celebrationTimerStep^[101] appCeleb = appCeleb.reset_session ∧
    handleCelebrationKey appCeleb KeyCode.Enter = appCeleb.reset_session := by
  have h := C5_celebration_cadence
  exact ⟨(h.1 appCeleb rfl rfl).2,
         h.2 appCeleb KeyCode.Enter rfl (by decide) (Or.inl rfl)⟩

/-- C6: with Mock enabled (keyless), Mollie enabled (key needed, none yet)
and Adyen disabled, confirming ProviderSelect enters ProviderApiKey bound
to Mollie (index 1), skipping Mock's and the disabled provider's credential
steps; confirming any non-empty key there goes directly to Confirm,
skipping the merchant-account step. -/
theorem C6_wizard_path (a : App)
    (hstep : a.setup_step = SetupStep.ProviderSelect)
    (hconf : a.provider_configs = wizardConfigs) :
    ((handleSetupInput a KeyCode.Enter).1.setup_step = SetupStep.ProviderApiKey ∧
     (handleSetupInput a KeyCode.Enter).1.current_provider_idx = 1 ∧
     (((handleSetupInput a KeyCode.Enter).1.provider_configs.getD 1
         { name := "", enabled := false, api_key := "", merchant_account := "" }).name
       = "Mollie")) ∧
    (∀ s : String, s.isEmpty = false →
      (handleSetupInput
          { (handleSetupInput a KeyCode.Enter).1 with setup_input := s }
          KeyCode.Enter).1.setup_step = SetupStep.Confirm) := by
  have h1 : (handleSetupInput a KeyCode.Enter).1 =
      { a with current_provider_idx := 1, setup_input := "",
               setup_step := SetupStep.ProviderApiKey } := by
    simp [handleSetupInput, handleProviderSelectKey, hstep, hconf, needsApiKey,
          wizardConfigs, List.findIdx?, String.isEmpty_iff]
  refine ⟨⟨by rw [h1], by rw [h1], by rw [h1]; simp [hconf, wizardConfigs]⟩, ?_⟩
  intro s hs
  rw [h1]
  simp [handleSetupInput, handleApiKeyKey, hs, hconf, wizardConfigs, updateAt,
        advanceToNextProviderOrConfirm, needsApiKey, List.findIdx?, String.isEmpty_iff]

/-- Witness for C6: concrete wizard run with key "k". -/
theorem C6_wizard_path_witness :
    (handleSetupInput appWizard KeyCode.Enter).1.setup_step = SetupStep.ProviderApiKey ∧
    (handleSetupInput appWizard KeyCode.Enter).1.current_provider_idx = 1 ∧
    (handleSetupInput
        { (handleSetupInput appWizard KeyCode.Enter).1 with setup_input := "k" }
        KeyCode.Enter).1.setup_step = SetupStep.Confirm := by
  have h := C6_wizard_path appWizard rfl rfl
  exact ⟨h.1.1, h.1.2.1, h.2 "k" (by decide)⟩

/-- C7: on a Running tick, after the physics step the session enters
Celebration with the counter reset to 0 exactly when the settled count
times the unit height 3 reaches the display height minus the margin 6 and
the pending queue is empty; otherwise this check leaves phase and counter
unchanged. The side condition keeps the `u16` product below 2^16, where the
source arithmetic coincides with the mathematical product. -/
theorem C7_overflow_detection (a : App) (h : Nat)
    (hrun : a.phase = AppPhase.Running)
    (hset : ((a.tick_animations.bills.filter (fun b => b.settled)).length) * 3 < 65536) :
    (((runningTick a h).phase = AppPhase.Celebration ∧
        (runningTick a h).celebration_tick = 0) ↔
      (h - 6 ≤ ((a.tick_animations.bills.filter (fun b => b.settled)).length) * 3 ∧
        a.tick_animations.pending_bills = [])) ∧
    (¬ (h - 6 ≤ ((a.tick_animations.bills.filter (fun b => b.settled)).length) * 3 ∧
          a.tick_animations.pending_bills = []) →
      (runningTick a h).phase = a.phase ∧
      (runningTick a h).celebration_tick = a.celebration_tick) := by
  have hlen : ((a.tick_animations.bills.filter (fun b => b.settled)).length) < 65536 := by
    omega
  have hful : a.tick_animations.is_screen_full h =
      decide (h - 6 ≤ ((a.tick_animations.bills.filter (fun b => b.settled)).length) * 3) := by
    unfold App.is_screen_full
    rw [Nat.mod_eq_of_lt hlen, Nat.mod_eq_of_lt hset]
  unfold runningTick
  rw [if_pos hrun]
  by_cases hc : h - 6 ≤ ((a.tick_animations.bills.filter (fun b => b.settled)).length) * 3 ∧
      a.tick_animations.pending_bills = []
  · have hcond : (a.tick_animations.is_screen_full h &&
        a.tick_animations.pending_bills.isEmpty) = true := by
      rw [hful, hc.2]
      simp [hc.1]
    rw [if_pos hcond]
    exact ⟨⟨fun _ => hc, fun _ => ⟨rfl, rfl⟩⟩, fun hnc => absurd hc hnc⟩
  · have hcond : (a.tick_animations.is_screen_full h &&
        a.tick_animations.pending_bills.isEmpty) = false := by
      rw [hful]
      rcases Decidable.not_and_iff_or_not.mp hc with hc1 | hc2
      · simp [hc1]
      · have : a.tick_animations.pending_bills.isEmpty = false := by
          rcases hpb : a.tick_animations.pending_bills with _ | ⟨q, qs⟩
          · exact absurd hpb hc2
          · rfl
        simp [this]
    rw [if_neg (by simp [hcond])]
    constructor
    · constructor
      · intro hph
        exact absurd hph.1 (by simp [App.tick_animations, hrun])
      · intro hx
        exact absurd hx hc
    · intro _
      exact ⟨rfl, rfl⟩

/-- Witness for C7: a running session with no bills and an empty pending
queue on a 4-row display (threshold 0) transitions to Celebration. -/
theorem C7_overflow_detection_witness :
    ((runningTick appRun 4).phase = AppPhase.Celebration ∧
      (runningTick appRun 4).celebration_tick = 0) ∧
    appRun.phase = AppPhase.Running :=
  ⟨((C7_overflow_detection appRun 4 (by decide) (by decide)).1).mpr
      ⟨by decide, by decide⟩,
   by decide⟩

/-- A settled bill never changes position or settled flag under any number
of physics ticks; only its age grows. -/
theorem tickBill_iterate_settled (k : Nat) : ∀ b : BillAnimation, b.settled = true →
    (tickBill^[k] b).y_pos = b.y_pos ∧ (tickBill^[k] b).settled = true := by
  induction k with
  | zero => intro b hb; exact ⟨rfl, hb⟩
  | succ n ihn =>
    intro b hb
    rw [Function.iterate_succ_apply]
    have hstep : tickBill b = { b with age_ticks := b.age_ticks + 1 } := by
      simp [tickBill, hb]
    rw [hstep]
    exact ihn _ hb

/-- While the remaining distance stays at least 1, each physics tick leaves
exactly 0.7 of it: after `k` ticks the distance is `D × 0.7^k` and the bill
is still falling toward the unchanged target. -/
theorem tickBill_iterate_distance (k : Nat) : ∀ b : BillAnimation,
    b.settled = false → 1 ≤ (b.target_y - b.y_pos) * (7 / 10) ^ k →
    b.target_y - (tickBill^[k] b).y_pos = (b.target_y - b.y_pos) * (7 / 10) ^ k ∧
    (tickBill^[k] b).settled = false ∧ (tickBill^[k] b).target_y = b.target_y := by
  induction k with
  | zero =>
    intro b hb _
    rw [Function.iterate_zero, id_eq, pow_zero, mul_one]
    exact ⟨rfl, hb, rfl⟩
  | succ n ihn =>
    intro b hb hk
    set D : ℚ := b.target_y - b.y_pos with hD
    have hpow : (0 : ℚ) < (7 / 10) ^ (n + 1) := by positivity
    have hDpos : (0 : ℚ) < D := by nlinarith
    have hD1 : (1 : ℚ) ≤ D := by
      nlinarith [pow_le_one₀ (by norm_num : (0:ℚ) ≤ 7 / 10) (by norm_num : (7:ℚ) / 10 ≤ 1) (n := n + 1)]
    have hnotlt : ¬ |D| < 1 := by
      rw [abs_of_pos hDpos]
      linarith
    have hstep : tickBill b =
        { b with y_pos := b.y_pos + D * (3 / 10), age_ticks := b.age_ticks + 1 } := by
      simp [tickBill, hb, ← hD, hnotlt]
    rw [Function.iterate_succ_apply, hstep]
    have hD' : b.target_y - (b.y_pos + D * (3 / 10)) = D * (7 / 10) := by
      rw [hD]; ring
    have hk' : 1 ≤ (b.target_y - (b.y_pos + D * (3 / 10))) * (7 / 10) ^ n := by
      rw [hD']
      calc (1 : ℚ) ≤ D * (7 / 10) ^ (n + 1) := hk
        _ = D * (7 / 10) * (7 / 10) ^ n := by ring
    obtain ⟨h1, h2, h3⟩ := ihn { b with y_pos := b.y_pos + D * (3 / 10), age_ticks := b.age_ticks + 1 } hb hk'
    refine ⟨?_, h2, h3⟩
    rw [h1]
    simp only
    rw [hD']
    ring

/-- C9: each Running-phase physics tick moves a non-settled unit by 0.3 of
the remaining distance (leaving `D × 0.7^k` after `k` ticks while that stays
at least 1), snaps it exactly to target once the remaining distance has
absolute value below 1, never moves a settled unit on any later tick, and
increments every unit's age by 1 on every tick. -/
theorem C9_convergent_physics :
    (∀ b : BillAnimation, (tickBill b).age_ticks = b.age_ticks + 1) ∧
    (∀ (b : BillAnimation) (k : Nat), b.settled = true →
      (tickBill^[k] b).y_pos = b.y_pos ∧ (tickBill^[k] b).settled = true) ∧
    (∀ b : BillAnimation, b.settled = false → |b.target_y - b.y_pos| < 1 →
      (tickBill b).y_pos = b.target_y ∧ (tickBill b).settled = true) ∧
    (∀ (b : BillAnimation) (k : Nat), b.settled = false →
      1 ≤ (b.target_y - b.y_pos) * (7 / 10) ^ k →
      b.target_y - (tickBill^[k] b).y_pos = (b.target_y - b.y_pos) * (7 / 10) ^ k ∧
      (tickBill^[k] b).settled = false) ∧
    (∀ a : App, (a.tick_animations).bills = a.bills.map tickBill) := by
  refine ⟨?_, ?_, ?_, ?_, fun _ => rfl⟩
  · intro b
    by_cases hb : b.settled = false
    · by_cases hd : |b.target_y - b.y_pos| < 1
      · simp [tickBill, hb, hd]
      · simp [tickBill, hb, hd]
    · simp [tickBill, hb]
  · intro b k hb
    exact tickBill_iterate_settled k b hb
  · intro b hb hd
    simp [tickBill, hb, hd]
  · intro b k hb hk
    exact ⟨(tickBill_iterate_distance k b hb hk).1, (tickBill_iterate_distance k b hb hk).2.1⟩

/-- Witness for C9: the bill at distance 10 ages by one tick, and after two
ticks its remaining distance is exactly 10 × 0.49 = 4.9. -/
theorem C9_convergent_physics_witness :
    (tickBill bEx).age_ticks = 1 ∧
    bEx.target_y - (tickBill^[2] bEx).y_pos = (bEx.target_y - bEx.y_pos) * (7 / 10) ^ 2 :=
  ⟨C9_convergent_physics.1 bEx,
   (C9_convergent_physics.2.2.2.1 bEx 2 rfl (by norm_num [bEx])).1⟩
